import Mathlib

/-
Verification development for the NASA image-of-the-day crawler
(src/crawlStars.py).  The program logic is shallowly embedded: pure
Python string operations become Lean functions on String / List Char,
the two regular-expression patterns become specialized matchers with
the same backtracking semantics, network fetches are abstracted as
functions from a URL to the fetched document (a list of text lines),
and fallible transport is modelled with Except.
-/

namespace CrawlStars

/-! ## Python string primitives -/

/-- Whitespace characters recognised by Python str.strip and the
regex class backslash-s, restricted to the Latin-1 range that the
ISO-8859-1 decoding in the source can produce. -/
def pyIsSpace (c : Char) : Bool :=
  c = ' ' || c = '\t' || c = '\n' || c = '\x0b' || c = '\x0c' || c = '\r' ||
  c = '\x1c' || c = '\x1d' || c = '\x1e' || c = '\x1f' || c = '\x85' || c = '\xa0'

/-- Python str.strip with no argument: remove leading and trailing
whitespace. -/
def pyStrip (s : String) : String :=
  (((s.toList.dropWhile pyIsSpace).reverse.dropWhile pyIsSpace).reverse).asString

/-- Worker for pyReplace: replace each non-overlapping occurrence of
pat (left to right) by repl.  The fuel argument is at least the length
of the remaining input, so the zero-fuel branch is unreachable for the
initial fuel chosen in pyReplace. -/
def replFuel (pat repl : List Char) : Nat → List Char → List Char
  | _, [] => []
  | 0, s => s
  | n + 1, c :: cs =>
    if pat.isPrefixOf (c :: cs) then
      repl ++ replFuel pat repl n ((c :: cs).drop pat.length)
    else
      c :: replFuel pat repl n cs

/-- Python str.replace for a non-empty pattern (the source only uses
the patterns "-" and the brace-delimited date placeholder). -/
def pyReplace (s pat repl : String) : String :=
  if pat.toList = [] then s
  else (replFuel pat.toList repl.toList s.toList.length s.toList).asString

/-- Python slice s[a:b] for natural bounds: clamped, never failing. -/
def pySlice (s : String) (a b : Nat) : String :=
  ((s.toList.drop a).take (b - a)).asString

/-- Python sep.join(parts). -/
def pyJoin (sep : String) : List String → String
  | [] => ""
  | [x] => x
  | x :: xs => x ++ sep ++ pyJoin sep xs

/-- Python string comparison a <= b: lexicographic by code point. -/
def pyLeList : List Char → List Char → Bool
  | [], _ => true
  | _ :: _, [] => false
  | a :: as, b :: bs => if a = b then pyLeList as bs else decide (a < b)

/-- Python a <= b on strings. -/
def pyLe (a b : String) : Bool := pyLeList a.toList b.toList

/-! ## Regex building blocks

The two patterns of the source are compiled away into specialized
matchers.  greedyRun is the maximal run of a character class; tryG2
is the backtracking loop for a greedy plus-group followed by a
continuation that may force the group to give characters back. -/

/-- Split off the maximal leading run of characters satisfying p. -/
def greedyRun (p : Char → Bool) : List Char → List Char × List Char
  | [] => ([], [])
  | c :: cs =>
    if p c then
      let r := greedyRun p cs
      (c :: r.1, r.2)
    else ([], c :: cs)

/-- Case-sensitive literal prefix: consume pat off the front. -/
def stripPrefixL : List Char → List Char → Option (List Char)
  | [], s => some s
  | _ :: _, [] => none
  | p :: ps, c :: cs => if c = p then stripPrefixL ps cs else none

/-- Case-insensitive literal prefix (pattern given in lower case),
as produced by the IGNORECASE flag on an ASCII literal. -/
def stripPrefixCIL : List Char → List Char → Option (List Char)
  | [], s => some s
  | _ :: _, [] => none
  | p :: ps, c :: cs => if c.toLower = p then stripPrefixCIL ps cs else none

/-- The trailing dot-star-dollar of the subpage pattern: in Python the
dot does not match a newline and the dollar also matches just before a
final newline, so the remainder is accepted exactly when every
character but possibly the last is not a newline. -/
def dotStarEnd (s : List Char) : Bool := !(s.dropLast.contains '\n')

/-! ## PATTERN_SUBPAGE

The source constant, line 20 of crawlStars.py (a raw Python regex):
  caret (backslash-d{4}[^:]+): backslash-s+ <a href="([^"]+)[^>]+>([^<]+)</a> .* dollar
matched case-sensitively with Pattern.match (anchored at the start). -/

/-- After the second capture group: the residue [^>]+> then the third
group ([^<]+) then the literal closing anchor tag then dot-star-dollar.
Each plus-class here is followed by a character it cannot contain, so
this continuation is deterministic. -/
def contAfterG2 (rest : List Char) : Option (List Char) :=
  match greedyRun (fun c => c ≠ '>') rest with
  | ([], _) => none
  | (_, u) =>
    match u with
    | '>' :: v =>
      match greedyRun (fun c => c ≠ '<') v with
      | ([], _) => none
      | (g3, w) =>
        match stripPrefixL ("</a>".toList) w with
        | none => none
        | some x => if dotStarEnd x then some g3 else none
    | _ => none

/-- Backtracking over the length of the greedy second capture group
([^"]+): the maximal run R is tried first, then shorter prefixes, as a
Python regex engine does.  S is the input after the maximal run. -/
def tryG2 (R S : List Char) : Nat → Option (List Char × List Char)
  | 0 => none
  | n + 1 =>
    match contAfterG2 (R.drop (n + 1) ++ S) with
    | some g3 => some (R.take (n + 1), g3)
    | none => tryG2 R S n

/-- Matcher for PATTERN_SUBPAGE: returns the three capture groups
(date label, relative link, title) or none. -/
def matchSubpage (line : String) : Option (String × String × String) :=
  match line.toList with
  | d1 :: d2 :: d3 :: d4 :: rest =>
    if d1.isDigit && d2.isDigit && d3.isDigit && d4.isDigit then
      match greedyRun (fun c => c ≠ ':') rest with
      | ([], _) => none
      | (r1, s1) =>
        match s1 with
        | ':' :: s2 =>
          match greedyRun pyIsSpace s2 with
          | ([], _) => none
          | (_, s3) =>
            match stripPrefixL ("<a href=\"".toList) s3 with
            | none => none
            | some s4 =>
              match greedyRun (fun c => c ≠ '"') s4 with
              | (gR, gS) =>
                match tryG2 gR gS gR.length with
                | none => none
                | some (link, title) =>
                  some ((d1 :: d2 :: d3 :: d4 :: r1).asString,
                        link.asString, title.asString)
        | _ => none
    else none
  | _ => none

/-! ## PATTERN_IMAGE

The source constant, line 21 of crawlStars.py:
  caret <img src="([^"]+)" dollar
compiled with re.IGNORECASE inside find_image_on_page (line 86). -/

/-- Matcher for PATTERN_IMAGE: returns the single capture group
(the image path) or none.  The literal part is case-insensitive; the
dollar after the closing quote accepts the end of the string or a
single final newline. -/
def matchImage (line : String) : Option String :=
  match stripPrefixCIL ("<img src=\"".toList) line.toList with
  | none => none
  | some rest =>
    match greedyRun (fun c => c ≠ '"') rest with
    | ([], _) => none
    | (grp, rest2) =>
      match rest2 with
      | '"' :: tail =>
        if tail = [] ∨ tail = ['\n'] then some grp.asString else none
      | _ => none

/-! ## Program constants (crawlStars.py lines 17-23) -/

def IMG_FILENAME_FORMAT : String := "image_{date}.jpg"

def URL_BASE : String := "https://apod.nasa.gov/apod/archivepix.html"

def DATE_START : String := "2020-01-01"

/-! ## get_parent_url (lines 26-36)

re.sub("/[^/]+$", "", url): the pattern can match at most once, at the
last slash, and only when that slash is followed by at least one
character; the match is removed.  Translated by scanning the reversed
string. -/

def get_parent_url (url : String) : String :=
  match greedyRun (fun c => c ≠ '/') url.toList.reverse with
  | (_ :: _, '/' :: before) => before.reverse.asString
  | _ => url

/-! ## load_archive (lines 39-69)

The fetched index document is abstracted as the list of its raw text
lines (ISO-8859-1 decoding is a bijection on bytes and never fails);
the generator becomes the list of yielded triples, in order. -/

/-- page_start as computed on lines 58-59: strip the dashes from the
start date, drop the first two digits, and prepend "ap". -/
def page_start_of (date_start : String) : String :=
  "ap" ++ ((pyReplace date_start "-" "").toList.drop 2).asString

/-- The per-line body of the load_archive loop (lines 62-68): strip
the line, match it, and keep the triple only when the captured link is
at least page_start under Python string comparison. -/
def loadArchiveLine (matcher : String → Option (String × String × String))
    (date_start : String) (item : String) :
    Option (String × String × String) :=
  match matcher (pyStrip item) with
  | some (wh, link, title) =>
    if pyLe (page_start_of date_start) link then some (wh, link, title) else none
  | none => none

/-- load_archive over an already-fetched document. -/
def load_archive (doc : List String)
    (matcher : String → Option (String × String × String))
    (date_start : String) : List (String × String × String) :=
  doc.filterMap (loadArchiveLine matcher date_start)

/-! ## find_image_on_page (lines 72-89)

The page fetch is abstracted: this function takes the fetched lines.
The loop keeps overwriting result with the latest match. -/

def find_image_on_page (page : List String) : Option String :=
  page.foldl
    (fun result item =>
      match matchImage (pyStrip item) with
      | some g => some g
      | none => result)
    none

/-! ## save_images (lines 92-109)

Filesystem and network side effects are reified: each performed image
download is recorded as a SaveAction (the image URL and the filename
the bytes are written to). -/

structure SaveAction where
  url : String
  filename : String
deriving DecidableEq

/-- The filename computation on line 108: substitute the slice
link[2:8] into IMG_FILENAME_FORMAT. -/
def derive_filename (link : String) : String :=
  pyReplace IMG_FILENAME_FORMAT "{date}" (pySlice link 2 8)

/-- save_images with the page fetch abstracted as a pure function from
URL to fetched lines (transport errors are treated separately below). -/
def save_images (fetch : String → List String)
    (pages : List (String × String × String)) (base_url : String) :
    List SaveAction :=
  pages.filterMap (fun pg =>
    match find_image_on_page (fetch (pyJoin "/" [base_url, pg.2.1])) with
    | none => none
    | some img_link =>
      some ⟨pyJoin "/" [base_url, img_link], derive_filename pg.2.1⟩)

/-! ## Transport errors (urllib.error.URLError)

Transport faults are modelled with Except: a fetch either returns the
document or raises a URLError.  None of load_archive,
find_image_on_page or save_image_from_url contains a handler, so an
error value passes through them unchanged; only main (lines 134-145)
catches URLError and logs it. -/

inductive NetErr where
  | urlError : String → NetErr
deriving DecidableEq

/-- find_image_on_page with the fetch made explicit and fallible: the
function body has no handler, so a transport error is returned as-is. -/
def find_image_on_pageE (fetch : String → Except NetErr (List String))
    (page_url : String) : Except NetErr (Option String) :=
  match fetch page_url with
  | .error e => .error e
  | .ok lines => .ok (find_image_on_page lines)

/-- save_images with fallible page and image fetches.  Returns the
actions performed before any failure, together with the error that
aborted the loop (if any): an error stops the iteration immediately,
so the action for the failing entry and all later entries is absent. -/
def save_imagesE (fetchPage : String → Except NetErr (List String))
    (fetchImg : String → Except NetErr Unit)
    (pages : List (String × String × String)) (base_url : String) :
    List SaveAction × Option NetErr :=
  match pages with
  | [] => ([], none)
  | (_, link, _) :: rest =>
    match find_image_on_pageE fetchPage (pyJoin "/" [base_url, link]) with
    | .error e => ([], some e)
    | .ok none => save_imagesE fetchPage fetchImg rest base_url
    | .ok (some img_link) =>
      match fetchImg (pyJoin "/" [base_url, img_link]) with
      | .error e => ([], some e)
      | .ok _ =>
        let r := save_imagesE fetchPage fetchImg rest base_url
        (⟨pyJoin "/" [base_url, img_link], derive_filename link⟩ :: r.1, r.2)

/-- main (lines 127-145): fetch the index, run the pipeline with base
get_parent_url URL_BASE, and catch URLError at this outermost
boundary, logging it once via logging.error.  The second component is
the list of error-level log lines emitted. -/
def mainE (fetchIndex : Except NetErr (List String))
    (fetchPage : String → Except NetErr (List String))
    (fetchImg : String → Except NetErr Unit) :
    List SaveAction × List String :=
  match fetchIndex with
  | .error (.urlError m) => ([], ["ERROR " ++ m])
  | .ok doc =>
    let res := save_imagesE fetchPage fetchImg
      (load_archive doc matchSubpage DATE_START) (get_parent_url URL_BASE)
    (res.1, match res.2 with
            | some (NetErr.urlError m) => ["ERROR " ++ m]
            | none => [])

/-! ## Process boundary (lines 148-152)

The outcome of running main is a value of Except PyExc Unit; main
itself catches only URLError (modelled inside main_handler), and the
module-level guard catches only KeyboardInterrupt, printing a short
notice instead of a trace. -/

inductive PyExc where
  | keyboardInterrupt : PyExc
  | urlError : String → PyExc
  | other : String → PyExc
deriving DecidableEq

/-- The try/except inside main (lines 134-145): URLError is caught and
logged, every other exception propagates. -/
def main_handler (body : Except PyExc Unit) : List String × Except PyExc Unit :=
  match body with
  | .error (.urlError m) => (["ERROR " ++ m], .ok ())
  | r => ([], r)

/-- The module-level try/except (lines 148-152): KeyboardInterrupt is
caught and converted to the fixed message; everything else propagates.
The first component collects the lines shown to the user. -/
def top_level (body : Except PyExc Unit) : List String × Except PyExc Unit :=
  match main_handler body with
  | (logs, .error .keyboardInterrupt) => (logs ++ ["Interrupted by user."], .ok ())
  | (logs, r) => (logs, r)

/-- Whether an outcome is an uncaught user interrupt. -/
def isKeyboardInterrupt : Except PyExc Unit → Bool
  | .error .keyboardInterrupt => true
  | _ => false

/-! ## Spec-side definition for claim C1

The claim words the page-start token as the start date with the
dashes stripped and the first two characters dropped, with no "ap"
prefix; this definition follows those words so the claim can be
compared with the page_start_of computed by the source. -/

def spec_page_start (date_start : String) : String :=
  ((pyReplace date_start "-" "").toList.drop 2).asString

/-! ## General lemmas -/

lemma toList_append (a b : String) : (a ++ b).toList = a.toList ++ b.toList := by
  cases a; cases b; rfl

lemma asString_toList (s : String) : s.toList.asString = s := rfl

/-- The overwrite-loop of find_image_on_page computes the last match,
falling back to the accumulator. -/
lemma foldl_image_aux (page : List String) (acc : Option String) :
    page.foldl
      (fun result item =>
        match matchImage (pyStrip item) with
        | some g => some g
        | none => result)
      acc =
    match (page.filterMap fun l => matchImage (pyStrip l)).getLast? with
    | some x => some x
    | none => acc := by
  induction page using List.reverseRecOn with
  | nil => rfl
  | append_singleton ls l ih =>
    cases h : matchImage (pyStrip l) with
    | none => simp [List.foldl_append, List.filterMap_append, h, ih]
    | some g => simp [List.foldl_append, List.filterMap_append, h, List.getLast?_concat]

lemma find_image_none_of_all (doc : List String)
    (h : ∀ l ∈ doc, matchImage (pyStrip l) = none) :
    find_image_on_page doc = none := by
  unfold find_image_on_page
  rw [foldl_image_aux, List.filterMap_eq_nil_iff.mpr h]
  rfl

lemma greedyRun_all (p : Char → Bool) (xs : List Char) (h : ∀ c ∈ xs, p c = true) :
    greedyRun p xs = (xs, []) := by
  induction xs with
  | nil => rfl
  | cons c cs ih =>
    simp [greedyRun, h c (by simp), ih fun d hd => h d (by simp [hd])]

lemma greedyRun_append_stop (p : Char → Bool) (xs : List Char) (y : Char) (ys : List Char)
    (hxs : ∀ c ∈ xs, p c = true) (hy : p y = false) :
    greedyRun p (xs ++ y :: ys) = (xs, y :: ys) := by
  induction xs with
  | nil => simp [greedyRun, hy]
  | cons c cs ih =>
    simp [greedyRun, hxs c (by simp), hy, ih fun d hd => hxs d (by simp [hd])]

/-! ## Claims -/

/-- C2: on a three-line fake index holding one matching line whose link
is below the 2020-01-02 threshold alongside another below-threshold
line and one above-threshold line, load_archive produces exactly one
entry, the one for the above-threshold line. -/
theorem C2_end_to_end :
    load_archive
      ["200101xx: <a href=\"ap200101.html\">Title A</a>",
       "2019 June 1: <a href=\"ap190601.html\">Below B</a>",
       "2020 March 5: <a href=\"ap200305.html\">Above C</a>"]
      matchSubpage "2020-01-02" =
      [("2020 March 5", "ap200305.html", "Above C")] := by decide

/-- C4 counterexample: the claim asserts a single separator regardless
of trailing characters, but joining a base that ends in a slash
produces a doubled separator. -/
theorem C4_trailing_slash_counterexample :
    pyJoin "/" ["https://example.com/apod/archive/", "ap200115.html"] =
      "https://example.com/apod/archive" ++ "//" ++ "ap200115.html" ∧
    decide (pyJoin "/" ["https://example.com/apod/archive/", "ap200115.html"] =
      "https://example.com/apod/archive/ap200115.html") = false := by decide

/-- C4 amended: the join used by the Director concatenates base and
link with exactly one inserted slash, so the documented example holds,
but the result is separator-safe only when the base has no trailing
slash and the link no leading slash. -/
theorem C4_join_amended :
    (∀ base link : String, pyJoin "/" [base, link] = base ++ "/" ++ link) ∧
    pyJoin "/" ["https://example.com/apod/archive", "ap200115.html"] =
      "https://example.com/apod/archive/ap200115.html" :=
  ⟨fun _ _ => rfl, by decide⟩

/-- C5: the derived filename is the fixed template around the
two-through-seven character slice of the entry link, independent of
the located image reference; the documented example holds. -/
theorem C5_filename_template :
    (∀ link : String, derive_filename link = "image_" ++ pySlice link 2 8 ++ ".jpg") ∧
    derive_filename "ap200115.html" = "image_200115.jpg" :=
  ⟨fun _ => rfl, by decide⟩

/-- C8: a user interrupt raised during the run passes uncaught through
the URLError handler inside main, is caught once at the module
boundary, becomes the fixed short message, and never propagates out of
the process boundary. -/
theorem C8_interrupt_boundary :
    top_level (Except.error PyExc.keyboardInterrupt) =
      (["Interrupted by user."], Except.ok ()) ∧
    (main_handler (Except.error PyExc.keyboardInterrupt)).2 =
      Except.error PyExc.keyboardInterrupt ∧
    (∀ body, isKeyboardInterrupt (top_level body).2 = false) := by
  refine ⟨rfl, rfl, fun body => ?_⟩
  cases body with
  | ok u => cases u; rfl
  | error e => cases e <;> rfl

/-- C9 counterexample: the claimed example line carries a closing
angle bracket after the quoted path, so the image pattern, which
anchors the line end right after the closing quote, rejects it. -/
theorem C9_claim_counterexample :
    matchImage (pyStrip "<IMG SRC=\"x.jpg\">") = none ∧
    find_image_on_page ["<IMG SRC=\"x.jpg\">"] = none := by decide

/-- C9 amended: the image pattern is applied case-insensitively, so an
upper-case line in the anchored format (no trailing bracket) matches,
while the index pattern is applied case-sensitively, rejecting an
upper-case anchor tag that matches in lower case. -/
theorem C9_case_sensitivity_amended :
    matchImage "<IMG SRC=\"x.jpg\"" = some "x.jpg" ∧
    matchImage "<img src=\"x.jpg\"" = some "x.jpg" ∧
    matchSubpage "2020 May 1: <A HREF=\"ap200501.html\">T</A>" = none ∧
    matchSubpage "2020 May 1: <a href=\"ap200501.html\">T</a>" =
      some ("2020 May 1", "ap200501.html", "T") := by decide

/-- C1 counterexample: with start date 2020-01-01 the pageStart of the
claim is the bare token 200101, and a matching line whose link is the
1901 page compares above that bare token (letters sort above digits),
yet load_archive yields nothing for it, because the code compares
against the token with the "ap" prefix. -/
theorem C1_claim_counterexample :
    spec_page_start "2020-01-01" = "200101" ∧
    matchSubpage (pyStrip "1901 January 1: <a href=\"ap190101.html\">X</a>") =
      some ("1901 January 1", "ap190101.html", "X") ∧
    pyLe (spec_page_start "2020-01-01") "ap190101.html" = true ∧
    load_archive ["1901 January 1: <a href=\"ap190101.html\">X</a>"]
      matchSubpage "2020-01-01" = [] := by decide

/-- C1 amended: a line of the index document yields an entry exactly
when it matches the index-row pattern and the captured link is at
least page_start under byte-wise comparison, where page_start is "ap"
followed by the start date with dashes stripped and the first two
characters dropped; for 2020-01-01 that is ap200101, not 200101. -/
theorem C1_page_start_amended :
    (∀ date_start line wh link title : String,
      loadArchiveLine matchSubpage date_start line = some (wh, link, title) ↔
        (matchSubpage (pyStrip line) = some (wh, link, title) ∧
         pyLe (page_start_of date_start) link = true)) ∧
    (∀ doc date_start, load_archive doc matchSubpage date_start =
        doc.filterMap (loadArchiveLine matchSubpage date_start)) ∧
    page_start_of "2020-01-01" = "ap200101" := by
  refine ⟨?_, fun _ _ => rfl, by decide⟩
  intro ds line wh link title
  unfold loadArchiveLine
  cases h : matchSubpage (pyStrip line) with
  | none => simp
  | some t =>
    obtain ⟨w, l, ti⟩ := t
    cases hle : pyLe (page_start_of ds) l with
    | false =>
      simp only [hle, Bool.false_eq_true, if_false]
      constructor
      · intro hs; exact Option.noConfusion hs
      · rintro ⟨hs, hl⟩
        injection hs with heq
        cases heq
        rw [hle] at hl
        exact Bool.noConfusion hl
    | true =>
      simp only [hle, if_true, Option.some.injEq, Prod.mk.injEq]
      constructor
      · rintro ⟨h1, h2, h3⟩
        exact ⟨⟨h1, h2, h3⟩, h2 ▸ hle⟩
      · rintro ⟨⟨h1, h2, h3⟩, _⟩
        exact ⟨h1, h2, h3⟩

/-- C3: the Page Image Locator returns the capture of the last line
matching the image pattern, and none when no line matches; in the
two-reference document it returns the second reference. -/
theorem C3_last_match_wins :
    (∀ page : List String,
      find_image_on_page page =
        (page.filterMap fun l => matchImage (pyStrip l)).getLast?) ∧
    find_image_on_page ["<img src=\"refA.jpg\"", "<img src=\"refB.jpg\""] =
      some "refB.jpg" := by
  refine ⟨fun page => ?_, by decide⟩
  unfold find_image_on_page
  rw [foldl_image_aux]
  cases (page.filterMap fun l => matchImage (pyStrip l)).getLast? <;> rfl

/-- C6: when the fetched page of an entry has no line matching the
image pattern, the locator returns none, the Director records no
retrieval for that entry, and the remaining entries are still
processed. -/
theorem C6_no_image_skips (fetch : String → List String) (base wh link title : String)
    (pre post : List (String × String × String))
    (h : ∀ l ∈ fetch (pyJoin "/" [base, link]), matchImage (pyStrip l) = none) :
    find_image_on_page (fetch (pyJoin "/" [base, link])) = none ∧
    save_images fetch (pre ++ (wh, link, title) :: post) base =
      save_images fetch pre base ++ save_images fetch post base := by
  have hnone := find_image_none_of_all _ h
  refine ⟨hnone, ?_⟩
  unfold save_images
  rw [List.filterMap_append, List.filterMap_cons]
  simp [hnone]

/-- C6 witness: a concrete entry whose page has no image line is
skipped while its neighbours are still processed. -/
theorem C6_no_image_skips_witness :
    find_image_on_page
      ((fun _ : String => ["<p>hello</p>"]) (pyJoin "/" ["https://x/a", "ap200101.html"])) =
      none ∧
    save_images (fun _ : String => ["<p>hello</p>"])
      ([("d0", "ap190101.html", "T0")] ++
        ("d1", "ap200101.html", "T1") :: [("d2", "ap200102.html", "T2")]) "https://x/a" =
      save_images (fun _ : String => ["<p>hello</p>"])
        [("d0", "ap190101.html", "T0")] "https://x/a" ++
      save_images (fun _ : String => ["<p>hello</p>"])
        [("d2", "ap200102.html", "T2")] "https://x/a" :=
  C6_no_image_skips (fun _ : String => ["<p>hello</p>"]) "https://x/a" "d1"
    "ap200101.html" "T1" [("d0", "ap190101.html", "T0")]
    [("d2", "ap200102.html", "T2")] (by decide)

/-- A prefix of entries that completes without a transport error
contributes its actions unchanged when more entries follow. -/
lemma save_imagesE_append_of_ok (fp : String → Except NetErr (List String))
    (fi : String → Except NetErr Unit) (base : String)
    (pre : List (String × String × String)) :
    ∀ acts : List SaveAction, save_imagesE fp fi pre base = (acts, none) →
      ∀ rest, save_imagesE fp fi (pre ++ rest) base =
        (acts ++ (save_imagesE fp fi rest base).1, (save_imagesE fp fi rest base).2) := by
  induction pre with
  | nil =>
    intro acts h rest
    have hac : acts = [] := by
      have := congrArg Prod.fst h
      simpa [save_imagesE] using this.symm
    subst hac
    simp
  | cons p pre ih =>
    intro acts h rest
    obtain ⟨wh, link, title⟩ := p
    cases hfp : find_image_on_pageE fp (pyJoin "/" [base, link]) with
    | error e =>
      simp only [save_imagesE, hfp] at h
      simp at h
    | ok o =>
      cases o with
      | none =>
        simp only [save_imagesE, hfp] at h
        simp only [List.cons_append, save_imagesE, hfp]
        exact ih acts h rest
      | some img =>
        cases hfi : fi (pyJoin "/" [base, img]) with
        | error e =>
          simp only [save_imagesE, hfp, hfi] at h
          simp at h
        | ok u =>
          simp only [save_imagesE, hfp, hfi, Prod.mk.injEq] at h
          obtain ⟨h1, h2⟩ := h
          have hr : save_imagesE fp fi pre base = ((save_imagesE fp fi pre base).1, none) := by
            conv_lhs => rw [← Prod.mk.eta (p := save_imagesE fp fi pre base)]
            rw [h2]
          simp only [List.cons_append, save_imagesE, hfp, hfi, List.append_eq]
          rw [ih _ hr rest]
          subst h1
          simp

/-- C7: transport errors are not handled inside the locator and the
per-entry loop: they surface unchanged, stop the loop before the
failing entry contributes an action and before any later entry is
processed, and main logs exactly one error line at the outermost
boundary (never more than one log line is produced). -/
theorem C7_transport_fatal :
    (∀ (fp : String → Except NetErr (List String)) url e,
        fp url = Except.error e → find_image_on_pageE fp url = Except.error e) ∧
    (∀ fp fi base pre acts wh link title rest e,
        save_imagesE fp fi pre base = (acts, none) →
        fp (pyJoin "/" [base, link]) = Except.error e →
        save_imagesE fp fi (pre ++ (wh, link, title) :: rest) base = (acts, some e)) ∧
    (∀ fp fi base pre acts wh link title rest img e,
        save_imagesE fp fi pre base = (acts, none) →
        find_image_on_pageE fp (pyJoin "/" [base, link]) = Except.ok (some img) →
        fi (pyJoin "/" [base, img]) = Except.error e →
        save_imagesE fp fi (pre ++ (wh, link, title) :: rest) base = (acts, some e)) ∧
    (∀ m fp fi, mainE (Except.error (NetErr.urlError m)) fp fi = ([], ["ERROR " ++ m])) ∧
    (∀ doc fp fi acts m,
        save_imagesE fp fi (load_archive doc matchSubpage DATE_START)
          (get_parent_url URL_BASE) = (acts, some (NetErr.urlError m)) →
        (mainE (Except.ok doc) fp fi).2 = ["ERROR " ++ m]) ∧
    (∀ fidx fp fi, (mainE fidx fp fi).2.length ≤ 1) := by
  refine ⟨?_, ?_, ?_, fun m fp fi => rfl, ?_, ?_⟩
  · intro fp url e h
    unfold find_image_on_pageE
    rw [h]
  · intro fp fi base pre acts wh link title rest e hpre hfp
    rw [save_imagesE_append_of_ok fp fi base pre acts hpre]
    have hloc : find_image_on_pageE fp (pyJoin "/" [base, link]) = Except.error e := by
      unfold find_image_on_pageE; rw [hfp]
    simp [save_imagesE, hloc]
  · intro fp fi base pre acts wh link title rest img e hpre hloc hfi
    rw [save_imagesE_append_of_ok fp fi base pre acts hpre]
    simp [save_imagesE, hloc, hfi]
  · intro doc fp fi acts m h
    simp only [mainE, h]
  · intro fidx fp fi
    cases fidx with
    | error e => cases e with | urlError m => simp [mainE]
    | ok doc =>
      simp only [mainE]
      cases h : (save_imagesE fp fi (load_archive doc matchSubpage DATE_START)
          (get_parent_url URL_BASE)).2 with
      | none => simp [h]
      | some e => cases e with | urlError m => simp [h]

/-- C7 witness: with a page fetch that always fails, the single
failure aborts the run before any entry is processed and the pipeline
result carries the error. -/
theorem C7_transport_fatal_witness :
    save_imagesE (fun _ => Except.error (NetErr.urlError "boom"))
      (fun _ => Except.ok ()) [] "https://x" = ([], none) ∧
    (fun _ : String => (Except.error (NetErr.urlError "boom") : Except NetErr (List String)))
      (pyJoin "/" ["https://x", "ap200101.html"]) = Except.error (NetErr.urlError "boom") ∧
    save_imagesE (fun _ => Except.error (NetErr.urlError "boom")) (fun _ => Except.ok ())
      ([] ++ ("d", "ap200101.html", "T") :: [("d2", "ap200102.html", "T2")]) "https://x" =
      ([], some (NetErr.urlError "boom")) :=
  ⟨rfl, rfl,
    C7_transport_fatal.2.1
      (fun _ => Except.error (NetErr.urlError "boom")) (fun _ => Except.ok ())
      "https://x" [] [] "d" "ap200101.html" "T" [("d2", "ap200102.html", "T2")]
      (NetErr.urlError "boom") rfl rfl⟩

/-- C10 counterexample: the claim demands the prefix before the last
slash for every input holding a slash, but an input that ends with a
slash is returned unchanged, slash included, because the substituted
pattern requires at least one character after the slash. -/
theorem C10_claim_counterexample :
    "https://apod.nasa.gov/".toList.contains '/' = true ∧
    get_parent_url "https://apod.nasa.gov/" = "https://apod.nasa.gov/" ∧
    decide (get_parent_url "https://apod.nasa.gov/" = "https://apod.nasa.gov") = false := by
  decide

/-- C10 amended: when the input ends in a slash followed by at least
one non-slash character, get_parent_url returns the prefix before
that last slash; an input with no slash at all, or ending in a slash,
is returned unchanged; the Director passes get_parent_url of the
index URL, which is the index URL cut at its last slash, as the base
for the joins. -/
theorem C10_parent_url_amended :
    (∀ a b : String, b ≠ "" → (∀ c ∈ b.toList, c ≠ '/') →
        get_parent_url (a ++ "/" ++ b) = a) ∧
    (∀ s : String, (∀ c ∈ s.toList, c ≠ '/') → get_parent_url s = s) ∧
    (∀ s : String, get_parent_url (s ++ "/") = s ++ "/") ∧
    get_parent_url URL_BASE = "https://apod.nasa.gov/apod" := by
  refine ⟨?_, ?_, ?_, by decide⟩
  · intro a b hb hsl
    unfold get_parent_url
    rw [toList_append, toList_append]
    have htl : ("/" : String).toList = ['/'] := rfl
    rw [htl, List.append_assoc, List.reverse_append, List.reverse_append]
    simp only [List.reverse_cons, List.reverse_nil, List.nil_append]
    rw [List.append_assoc]
    simp only [List.singleton_append]
    have hrun : greedyRun (fun c => c ≠ '/') (b.toList.reverse ++ '/' :: a.toList.reverse) =
        (b.toList.reverse, '/' :: a.toList.reverse) := by
      refine greedyRun_append_stop _ _ _ _ (fun c hc => ?_) (by simp)
      simp only [List.mem_reverse] at hc
      simpa using hsl c hc
    rw [hrun]
    have hbne : b.toList.reverse ≠ [] := by
      intro hx
      rw [List.reverse_eq_nil_iff] at hx
      apply hb
      cases b with
      | mk data =>
        change data = [] at hx
        subst hx
        rfl
    cases hc : b.toList.reverse with
    | nil => exact absurd hc hbne
    | cons c cs =>
      simp only [List.reverse_reverse]
      rfl
  · intro s hsl
    unfold get_parent_url
    have hrun : greedyRun (fun c => c ≠ '/') s.toList.reverse = (s.toList.reverse, []) := by
      refine greedyRun_all _ _ fun c hc => ?_
      simp only [List.mem_reverse] at hc
      simpa using hsl c hc
    rw [hrun]
    cases s.toList.reverse with
    | nil => rfl
    | cons c cs => rfl
  · intro s
    unfold get_parent_url
    rw [toList_append]
    have htl : ("/" : String).toList = ['/'] := rfl
    rw [htl, List.reverse_append]
    simp only [List.reverse_cons, List.reverse_nil, List.nil_append, List.singleton_append]
    have hrun : greedyRun (fun c => c ≠ '/') ('/' :: s.toList.reverse) =
        ([], '/' :: s.toList.reverse) := by
      simp [greedyRun]
    rw [hrun]

/-- C10 witness: a base joined with a slash-free page name is cut back
to the base. -/
theorem C10_parent_url_amended_witness :
    get_parent_url ("https://x.com" ++ "/" ++ "page.html") = "https://x.com" :=
  C10_parent_url_amended.1 "https://x.com" "page.html" (by decide) (by decide)

end CrawlStars
